import Mathlib

/-!
Shallow embedding of the core data structures and operations of the hubble
node-local observability daemon: the endpoint table (pkg/api/v1/endpoint.go),
the loose HTTP comparison (pkg/api/v1/http.go), and — modelled from the spec
where only tests of the code are available — the CIDR label filter, the
trace-v1 original-IP substitution, and the IP cache.

Modelling conventions: machine integers and time values are `Nat`; Go
nil-able values are `Option`; Go slices are `List`; a `net.IP` value is an
`Option Nat` holding the canonical numeric address (`none` is Go's nil IP),
so that `net.IP.Equal` becomes equality of the options. Mutexes are elided:
every operation is a sequential state transformer on the table state.
-/

/-- Mirrors the Go struct `v1.Endpoint`: container ids, numeric id, the two
IPs, pod name and namespace, labels, and the two time fields `Created` and
`Deleted` (the latter nullable — `none` means the entry is live, `some t`
makes it a tombstone). -/
structure Endpoint where
  ContainerIDs : Option (List String)
  ID : Nat
  IPv4 : Option Nat
  IPv6 : Option Nat
  PodName : String
  PodNamespace : String
  Labels : List String
  Created : Nat
  Deleted : Option Nat
deriving DecidableEq

/-- Direct translation of `Endpoint.EqualsByID` from endpoint.go: same id and
the receiver's pod name and namespace both empty, or same id and equal pod
name and namespace. -/
def Endpoint.EqualsByID (e o : Endpoint) : Bool :=
  (e.ID == o.ID && e.PodName == "" && e.PodNamespace == "") ||
    (e.ID == o.ID && e.PodName == o.PodName && e.PodNamespace == o.PodNamespace)

/-- Direct translation of `Endpoint.SetFrom` from endpoint.go: each non-time
field of the receiver is overwritten by the corresponding field of `o` when
that field of `o` is non-zero (non-nil slice, non-zero id, non-nil IP,
non-empty string); `Created`, `Deleted` and `Labels` are not touched. -/
def Endpoint.SetFrom (e o : Endpoint) : Endpoint :=
  { e with
    ContainerIDs := if o.ContainerIDs.isSome then o.ContainerIDs else e.ContainerIDs,
    ID := if o.ID != 0 then o.ID else e.ID,
    IPv4 := if o.IPv4.isSome then o.IPv4 else e.IPv4,
    IPv6 := if o.IPv6.isSome then o.IPv6 else e.IPv6,
    PodName := if o.PodName != "" then o.PodName else e.PodName,
    PodNamespace := if o.PodNamespace != "" then o.PodNamespace else e.PodNamespace }

/-- Models `net.IP.Equal` on canonical numeric addresses: two nil IPs are
equal, a nil IP equals no address, addresses compare numerically. -/
def ipEqual (a b : Option Nat) : Bool := a == b

/-- The match condition of the loop body of `Endpoints.FindEPs`: the id
matches when the queried id is non-zero, or pod name and namespace match when
a pod name is queried, or the namespace matches when no pod name is queried. -/
def epMatchesQuery (epID : Nat) (ns podName : String) (ep : Endpoint) : Bool :=
  (epID != 0 && ep.ID == epID) ||
    (podName != "" && (ep.PodName == podName && ep.PodNamespace == ns)) ||
    (podName == "" && ep.PodNamespace == ns)

/-- Direct translation of `Endpoints.FindEPs`: collect, in table order, every
entry satisfying the match condition. The loop consults no other field. -/
def findEPs (eps : List Endpoint) (epID : Nat) (ns podName : String) : List Endpoint :=
  eps.filter (epMatchesQuery epID ns podName)

/-- Direct translation of `Endpoints.GetEndpoint`: the first entry whose IPv4
or IPv6 equals the queried ip, if any. -/
def getEndpoint (eps : List Endpoint) (ip : Option Nat) : Option Endpoint :=
  eps.find? fun ep => ipEqual ep.IPv4 ip || ipEqual ep.IPv6 ip

/-- Direct translation of `Endpoints.updateEndpoint`: walk the table skipping
tombstoned entries; on the first live entry id-equal to `up`, overwrite its
non-time fields via `SetFrom` and stop; if none is found, append `up`. -/
def updateEndpoint : List Endpoint → Endpoint → List Endpoint
  | [], up => [up]
  | ep :: rest, up =>
    if ep.Deleted.isSome then ep :: updateEndpoint rest up
    else if ep.EqualsByID up then ep.SetFrom up :: rest
    else ep :: updateEndpoint rest up

/-- The first loop of `Endpoints.SyncEndpoints`: every live entry id-equal to
no element of `newEps` gets `Deleted := some now`; tombstoned entries and
live entries found in `newEps` are left unchanged. -/
def markDeletedIfAbsent (now : Nat) (newEps : List Endpoint) (eps : List Endpoint) :
    List Endpoint :=
  eps.map fun ep =>
    if ep.Deleted.isSome then ep
    else if newEps.any (fun u => ep.EqualsByID u) then ep
    else { ep with Deleted := some now }

/-- Direct translation of `Endpoints.SyncEndpoints`: an empty `newEps` list
returns immediately; otherwise absent live entries are tombstoned and then
every element of `newEps` is upserted via `updateEndpoint`. The `now`
parameter stands for the call to `time.Now()`. -/
def syncEndpoints (now : Nat) (eps newEps : List Endpoint) : List Endpoint :=
  if newEps.isEmpty then eps
  else newEps.foldl updateEndpoint (markDeletedIfAbsent now newEps eps)

/-- Rewrites only the `Deleted` field of an endpoint; used to state that the
lookup operations never consult that field. -/
def setDeleted (d : Option Nat) (e : Endpoint) : Endpoint := { e with Deleted := d }

/-- Mirrors the protobuf HTTP record as consumed by `LooseCompareHTTP`: the
four compared fields plus the headers, which the comparison ignores. -/
structure HTTP where
  Code : Nat
  Method : String
  Url : String
  Protocol : String
  Headers : List (String × String)
deriving DecidableEq

/-- Direct translation of `LooseCompareHTTP` from http.go. -/
def LooseCompareHTTP (a b : HTTP) : Bool :=
  a.Code == b.Code && a.Method == b.Method && a.Url == b.Url && a.Protocol == b.Protocol

/-- A label is a CIDR label when it starts with the five characters
"cidr:". -/
def isCidrLabel (l : String) : Bool :=
  l.data.take 5 == ['c', 'i', 'd', 'r', ':']

/-- Reads a decimal numeral from a character list. -/
def digitsToNat (ds : List Char) : Nat :=
  ds.foldl (fun acc c => acc * 10 + (c.toNat - 48)) 0

/-- The mask length of a CIDR label: the decimal numeral after the final
slash, 0 when the label has no slash or no numeral there. -/
def cidrMaskLen (l : String) : Nat :=
  let tl := (l.data.reverse.takeWhile fun c => c != '/').reverse
  if l.data.contains '/' && tl.all Char.isDigit then digitsToNat tl else 0

/-- The CIDR label with the largest mask length, earliest first on ties;
`none` on the empty list. -/
def pickMostSpecific : List String → Option String
  | [] => none
  | l :: ls =>
    match pickMostSpecific ls with
    | none => some l
    | some b => if cidrMaskLen b > cidrMaskLen l then some b else some l

/-- Modelled from the spec: the body of `filterCidrLabels` is not among the
available sources (only its unit test is). Per the spec, only the most
specific (largest mask length) cidr-tagged label of the input is kept, the
non-CIDR labels pass through unchanged in their original order, and empty
input yields an empty result; per the unit test, the surviving CIDR label is
placed after the non-CIDR labels. -/
def filterCidrLabels (labels : List String) : List String :=
  let keep := labels.filter fun l => !(isCidrLabel l)
  match pickMostSpecific (labels.filter isCidrLabel) with
  | none => keep
  | some best => keep ++ [best]

/-- The fields of a decoded trace-notify header that decide the L3 source IP
of the resulting flow: the header version and the 16-byte original source IP
(zero-filled when absent), as a canonical numeric address. -/
structure TraceNotifyHeader where
  version : Nat
  origIP : Nat
deriving DecidableEq

/-- Modelled from the spec: the trace decoder of the payload parser is not
among the available sources (only its tests are). Per the spec, when a
version-1 header carries a non-zero original source IP, that address is
substituted for the L3 source IP of the final flow; otherwise the source IP
of the embedded packet is used. -/
def traceFlowSourceIP (hdr : TraceNotifyHeader) (packetSrcIP : Nat) : Nat :=
  if hdr.version == 1 && hdr.origIP != 0 then hdr.origIP else packetSrcIP

/-- An IP cache key: a single IPv4 address with a mask length. -/
structure Cidr where
  addr : Nat
  maskLen : Nat
deriving DecidableEq

/-- An IP cache value: the security identity and the optional pod metadata
(empty strings when absent). -/
structure IPCacheEntry where
  identity : Nat
  ns : String
  podName : String
deriving DecidableEq

/-- The IP cache state: an association list from CIDR to entry. -/
structure IPCache where
  entries : List (Cidr × IPCacheEntry)
deriving DecidableEq

/-- The entry stored for a given CIDR key, if any. -/
def IPCache.lookup (c : IPCache) (key : Cidr) : Option IPCacheEntry :=
  (c.entries.find? fun p => p.fst == key).map Prod.snd

/-- Stores an entry under a CIDR key, replacing an existing entry for the
same key and appending otherwise. -/
def IPCache.store (c : IPCache) (key : Cidr) (e : IPCacheEntry) : IPCache :=
  if c.entries.any fun p => p.fst == key then
    ⟨c.entries.map fun p => if p.fst == key then (key, e) else p⟩
  else ⟨c.entries ++ [(key, e)]⟩

/-- Modelled from the spec: the IP cache implementation is not among the
available sources (only its synchronization test is). Per the spec, when the
old identity is present and the stored identity for the CIDR differs (or no
entry is stored), the upsert is a stale no-op; otherwise the entry is stored
with the new identity and pod metadata. -/
def IPCache.upsert (c : IPCache) (key : Cidr) (newId : Nat) (oldId : Option Nat)
    (ns podName : String) : IPCache :=
  match oldId with
  | some old =>
    match c.lookup key with
    | some stored =>
      if stored.identity == old then c.store key ⟨newId, ns, podName⟩ else c
    | none => c
  | none => c.store key ⟨newId, ns, podName⟩

/-- Modelled from the spec: deletes remove the entry for the CIDR
unconditionally. -/
def IPCache.delete (c : IPCache) (key : Cidr) : IPCache :=
  ⟨c.entries.filter fun p => !(p.fst == key)⟩

/-- Whether a CIDR covers a numeric IPv4 address: the two addresses agree on
the first `maskLen` bits. -/
def cidrCovers (key : Cidr) (ip : Nat) : Bool :=
  ip / 2 ^ (32 - key.maskLen) == key.addr / 2 ^ (32 - key.maskLen)

/-- The most specific stored entry covering the given address, if any. -/
def IPCache.longestMatch (c : IPCache) (ip : Nat) : Option (Cidr × IPCacheEntry) :=
  c.entries.foldl
    (fun best p =>
      if cidrCovers p.fst ip then
        match best with
        | none => some p
        | some b => if p.fst.maskLen > b.fst.maskLen then some p else some b
      else best)
    none

/-- Modelled from the spec: GetPodNameOf performs a longest-prefix match and
returns the namespace and pod with `true` exactly when the matched entry
carries both; otherwise empty strings and `false`. -/
def IPCache.GetPodNameOf (c : IPCache) (ip : Nat) : String × String × Bool :=
  match c.longestMatch ip with
  | some p =>
    if p.snd.ns != "" && p.snd.podName != "" then (p.snd.ns, p.snd.podName, true)
    else ("", "", false)
  | none => ("", "", false)

/-- An endpoint with empty pod name and namespace, id 7. -/
def epEmptyPod : Endpoint := ⟨none, 7, none, none, "", "", [], 0, none⟩

/-- An endpoint with id 7 and a named pod. -/
def epNamedPod : Endpoint := ⟨none, 7, none, none, "pod-a", "ns-a", [], 0, none⟩

/-- A tombstoned endpoint (deleted at 5) with id 3 and IPv4 1.1.1.1. -/
def tombstonedEp : Endpoint := ⟨none, 3, some 16843009, none, "pod-t", "ns-t", [], 0, some 5⟩

/-- A live endpoint with id 9. -/
def liveEp : Endpoint := ⟨none, 9, some 2, none, "pod-l", "ns-l", [], 0, none⟩

/-- An all-zero update source: every non-time field is the Go zero value. -/
def epZeroSrc : Endpoint := ⟨none, 0, none, none, "", "", [], 11, some 12⟩

/-- A fully populated update source. -/
def epFullSrc : Endpoint := ⟨some ["c1"], 8, some 21, some 22, "pod-f", "ns-f", [], 13, some 14⟩

/-- A concrete HTTP record. -/
def httpA : HTTP := ⟨200, "GET", "/index", "HTTP/1.1", [("k", "v")]⟩

/-- The same four compared fields as `httpA` but different headers. -/
def httpB : HTTP := ⟨200, "GET", "/index", "HTTP/1.1", []⟩

/-- A /32 CIDR for a concrete numeric address. -/
def cidr32 (a : Nat) : Cidr := ⟨a, 32⟩

/-- The bootstrap state of the scenario-5 test: 1.1.1.1/32, 2.2.2.2/32 and
4.4.4.4/32 with identity 100 and no pod metadata, 3.3.3.3/32 with identity
100 and pod ns-3/pod-3. -/
def bootstrapCache : IPCache :=
  ⟨[(cidr32 16843009, ⟨100, "", ""⟩),
    (cidr32 33686018, ⟨100, "", ""⟩),
    (cidr32 50529027, ⟨100, "ns-3", "pod-3"⟩),
    (cidr32 67372036, ⟨100, "", ""⟩)]⟩

/-- The scenario-5 notification sequence applied to the bootstrap state:
stale upsert of 3.3.3.3 (old identity 200 ≠ stored 100), delete of 2.2.2.2,
reinsert of 2.2.2.2 with ns-2/pod-2, upsert of 1.1.1.1 with ns-1/pod-1 (old
identity 100 = stored), delete of 4.4.4.4. -/
def scenarioCache : IPCache :=
  (((((bootstrapCache.upsert (cidr32 50529027) 100 (some 200) "" "").delete
        (cidr32 33686018)).upsert (cidr32 33686018) 100 none "ns-2" "pod-2").upsert
      (cidr32 16843009) 100 (some 100) "ns-1" "pod-1").delete (cidr32 67372036))

/-- C1 (counterexample): with equal ids, an endpoint with empty pod fields
compares `EqualsByID`-equal to one with a named pod, but not conversely, and
the section-3 two-sided definition is false there — refuting both symmetry
and the claimed characterisation. -/
theorem EqualsByID_asymmetric_cex :
    Endpoint.EqualsByID epEmptyPod epNamedPod = true ∧
    Endpoint.EqualsByID epNamedPod epEmptyPod = false ∧
    ¬((epEmptyPod.PodName = "" ∧ epEmptyPod.PodNamespace = "" ∧
        epNamedPod.PodName = "" ∧ epNamedPod.PodNamespace = "") ∨
      (epEmptyPod.PodName = epNamedPod.PodName ∧
        epEmptyPod.PodNamespace = epNamedPod.PodNamespace)) := by
  decide

/-- C1 (amended): `EqualsByID` is reflexive and returns `true` iff the ids
match and either the receiver's pod name and namespace are both empty or pod
name and namespace both match; it is not symmetric in general. -/
theorem EqualsByID_refl_and_characterisation (e o : Endpoint) :
    Endpoint.EqualsByID e e = true ∧
    (Endpoint.EqualsByID e o = true ↔
      e.ID = o.ID ∧
        ((e.PodName = "" ∧ e.PodNamespace = "") ∨
          (e.PodName = o.PodName ∧ e.PodNamespace = o.PodNamespace))) := by
  constructor
  · simp [Endpoint.EqualsByID]
  · simp only [Endpoint.EqualsByID, Bool.or_eq_true, Bool.and_eq_true, beq_iff_eq]
    tauto

/-- C5: `SetFrom` never modifies the time fields: `Created` and `Deleted`
are exactly what they were before the call. -/
theorem SetFrom_preserves_time_fields (e o : Endpoint) :
    (e.SetFrom o).Created = e.Created ∧ (e.SetFrom o).Deleted = e.Deleted :=
  ⟨rfl, rfl⟩

/-- C2 (counterexample): a tombstoned endpoint is returned both by a FindEPs
query on its id and by a GetEndpoint query on its IPv4, refuting the claim
that lookups return only live entries. -/
theorem findEPs_returns_tombstone_cex :
    findEPs [tombstonedEp] 3 "ns-q" "pod-q" = [tombstonedEp] ∧
    getEndpoint [tombstonedEp] (some 16843009) = some tombstonedEp ∧
    tombstonedEp.Deleted = some 5 := by
  decide

/-- C2 (amended): every endpoint returned by FindEPs matches the
id/pod/namespace query and every endpoint returned by GetEndpoint has a
matching IP, but the deleted-at field is never consulted: rewriting every
entry's deleted-at commutes with both lookups, so tombstoned entries are
returned like live ones. -/
theorem lookups_ignore_deleted_field (eps : List Endpoint) (epID : Nat)
    (ns podName : String) (ip : Option Nat) (d : Option Nat) :
    (∀ ep ∈ findEPs eps epID ns podName, epMatchesQuery epID ns podName ep = true) ∧
    (∀ ep, getEndpoint eps ip = some ep →
      (ipEqual ep.IPv4 ip || ipEqual ep.IPv6 ip) = true) ∧
    findEPs (eps.map (setDeleted d)) epID ns podName =
      (findEPs eps epID ns podName).map (setDeleted d) ∧
    getEndpoint (eps.map (setDeleted d)) ip = (getEndpoint eps ip).map (setDeleted d) := by
  refine ⟨?_, ?_, ?_, ?_⟩
  · intro ep hm
    exact (List.mem_filter.mp hm).2
  · intro ep h
    have h' : (eps.find? fun e => ipEqual e.IPv4 ip || ipEqual e.IPv6 ip) = some ep := h
    exact List.find?_some (p := fun (e : Endpoint) => ipEqual e.IPv4 ip || ipEqual e.IPv6 ip) h'
  · induction eps with
    | nil => rfl
    | cons e t ih =>
      unfold findEPs at *
      simp only [List.map_cons, List.filter_cons]
      have hpe : epMatchesQuery epID ns podName (setDeleted d e) =
          epMatchesQuery epID ns podName e := rfl
      rw [hpe]
      cases hp : epMatchesQuery epID ns podName e <;> simp [hp, ih]
  · induction eps with
    | nil => rfl
    | cons e t ih =>
      unfold getEndpoint at *
      simp only [List.map_cons, List.find?_cons]
      have hpe : (ipEqual (setDeleted d e).IPv4 ip || ipEqual (setDeleted d e).IPv6 ip) =
          (ipEqual e.IPv4 ip || ipEqual e.IPv6 ip) := rfl
      rw [hpe]
      cases hp : (ipEqual e.IPv4 ip || ipEqual e.IPv6 ip) <;> simp [hp, ih]

/-- C2 (witness): the amended theorem applied to the one-entry table holding
the tombstoned endpoint. -/
theorem lookups_ignore_deleted_field_witness :
    epMatchesQuery 3 "ns-q" "pod-q" tombstonedEp = true ∧
    (ipEqual tombstonedEp.IPv4 (some 16843009) ||
      ipEqual tombstonedEp.IPv6 (some 16843009)) = true :=
  ⟨(lookups_ignore_deleted_field [tombstonedEp] 3 "ns-q" "pod-q" (some 16843009) none).1
      tombstonedEp (by decide),
    (lookups_ignore_deleted_field [tombstonedEp] 3 "ns-q" "pod-q" (some 16843009) none).2.1
      tombstonedEp (by decide)⟩

/-- C3 (counterexample): syncing the empty list is a no-op — the live tracked
endpoint keeps deleted-at = none, refuting the claim for empty newList. -/
theorem syncEndpoints_empty_noop_cex :
    syncEndpoints 7 [liveEp] [] = [liveEp] ∧ liveEp.Deleted = none := by
  decide

/-- C3 (amended): for every non-empty newList, SyncEndpoints stamps
deleted-at = now on every live tracked endpoint that is id-equal to no
element of newList, leaves tombstoned entries and matched live entries
unchanged, and then upserts every element of newList via updateEndpoint; an
empty newList is a no-op. -/
theorem syncEndpoints_marks_and_upserts (now : Nat) (eps newEps : List Endpoint) :
    syncEndpoints now eps [] = eps ∧
    (newEps ≠ [] →
      syncEndpoints now eps newEps =
        newEps.foldl updateEndpoint
          (eps.map fun ep =>
            if ep.Deleted = none ∧ ∀ u ∈ newEps, ep.EqualsByID u = false then
              { ep with Deleted := some now }
            else ep)) := by
  constructor
  · simp [syncEndpoints]
  · intro h
    have hne : newEps.isEmpty = false := by
      cases newEps with
      | nil => exact absurd rfl h
      | cons a l => rfl
    unfold syncEndpoints
    rw [hne]
    simp only [Bool.false_eq_true, if_false]
    congr 1
    unfold markDeletedIfAbsent
    apply List.map_congr_left
    intro ep _
    by_cases hd : ep.Deleted = none
    · cases ha : newEps.any fun u => ep.EqualsByID u
      · have hall : ∀ u ∈ newEps, ep.EqualsByID u = false := by
          intro u hu
          have := List.any_eq_false.mp ha u hu
          exact Bool.eq_false_iff.mpr this
        simp only [hd, ha, Option.isSome_none, Bool.false_eq_true, if_false, true_and]
        rw [if_pos hall]
      · have hex : ¬∀ u ∈ newEps, ep.EqualsByID u = false := by
          obtain ⟨u, hu, hpu⟩ := List.any_eq_true.mp ha
          intro hall
          exact absurd (hall u hu) (by simp [hpu])
        simp [hd, ha, hex]
    · have hs : ep.Deleted.isSome = true := Option.isSome_iff_ne_none.mpr hd
      simp [hs, hd]

/-- C3 (witness): the amended theorem applied to a one-entry table and a
one-element newList. -/
theorem syncEndpoints_marks_and_upserts_witness :
    syncEndpoints 7 [liveEp] [epNamedPod] =
      [epNamedPod].foldl updateEndpoint
        ([liveEp].map fun ep =>
          if ep.Deleted = none ∧ ∀ u ∈ [epNamedPod], ep.EqualsByID u = false then
            { ep with Deleted := some 7 }
          else ep) :=
  (syncEndpoints_marks_and_upserts 7 [liveEp] [epNamedPod]).2 (by decide)

/-- C4: updateEndpoint appends when no live entry is id-equal to the update
(tombstoned entries never absorb it), and otherwise rewrites the first live
id-equal entry in place via SetFrom, leaving the rest of the table unchanged
and appending nothing. -/
theorem updateEndpoint_first_live_match_or_append :
    (∀ (eps : List Endpoint) (up : Endpoint),
      (∀ e ∈ eps, e.Deleted = none → e.EqualsByID up = false) →
      updateEndpoint eps up = eps ++ [up]) ∧
    (∀ (l₁ l₂ : List Endpoint) (ep up : Endpoint),
      (∀ e ∈ l₁, e.Deleted = none → e.EqualsByID up = false) →
      ep.Deleted = none → ep.EqualsByID up = true →
      updateEndpoint (l₁ ++ ep :: l₂) up = l₁ ++ ep.SetFrom up :: l₂) := by
  constructor
  · intro eps up h
    induction eps with
    | nil => rfl
    | cons e t ih =>
      unfold updateEndpoint
      by_cases hd : e.Deleted = none
      · have hne : e.EqualsByID up = false := h e (List.mem_cons_self e t) hd
        have hs : e.Deleted.isSome = false := by simp [hd]
        simp only [hs, Bool.false_eq_true, if_false, hne]
        rw [ih fun x hx => h x (List.mem_cons_of_mem e hx)]
        rfl
      · have hs : e.Deleted.isSome = true := Option.isSome_iff_ne_none.mpr hd
        simp only [hs, if_true]
        rw [ih fun x hx => h x (List.mem_cons_of_mem e hx)]
        rfl
  · intro l₁ l₂ ep up h hd hm
    induction l₁ with
    | nil =>
      unfold updateEndpoint
      have hs : ep.Deleted.isSome = false := by simp [hd]
      simp [hs, hm]
    | cons e t ih =>
      unfold updateEndpoint
      by_cases hde : e.Deleted = none
      · have hne : e.EqualsByID up = false := h e (List.mem_cons_self e t) hde
        have hs : e.Deleted.isSome = false := by simp [hde]
        simp only [List.cons_append, hs, Bool.false_eq_true, if_false, hne]
        rw [ih fun x hx => h x (List.mem_cons_of_mem e hx)]
      · have hs : e.Deleted.isSome = true := Option.isSome_iff_ne_none.mpr hde
        simp only [List.cons_append, hs, if_true]
        rw [ih fun x hx => h x (List.mem_cons_of_mem e hx)]

/-- C4 (witness): the theorem applied to a table whose only entry is
tombstoned (append case), and to the resulting table where the appended live
entry absorbs an id-equal update in place (overwrite case). -/
theorem updateEndpoint_first_live_match_or_append_witness :
    updateEndpoint [tombstonedEp] epNamedPod = [tombstonedEp, epNamedPod] ∧
    updateEndpoint [tombstonedEp, epNamedPod] epNamedPod =
      [tombstonedEp, epNamedPod.SetFrom epNamedPod] :=
  ⟨updateEndpoint_first_live_match_or_append.1 [tombstonedEp] epNamedPod (by decide),
    updateEndpoint_first_live_match_or_append.2 [tombstonedEp] [] epNamedPod epNamedPod
      (by decide) (by decide) (by decide)⟩

/-- Helper: the label selected by pickMostSpecific belongs to the list. -/
theorem pickMostSpecific_mem : ∀ {ls : List String} {b : String},
    pickMostSpecific ls = some b → b ∈ ls := by
  intro ls
  induction ls with
  | nil => intro b h; simp [pickMostSpecific] at h
  | cons l t ih =>
    intro b h
    unfold pickMostSpecific at h
    cases hp : pickMostSpecific t with
    | none =>
      rw [hp] at h
      simp only at h
      injection h with hb
      rw [← hb]
      exact List.mem_cons_self l t
    | some c =>
      rw [hp] at h
      simp only at h
      by_cases hc : cidrMaskLen c > cidrMaskLen l
      · rw [if_pos hc] at h
        injection h with hb
        rw [← hb]
        exact List.mem_cons_of_mem l (ih hp)
      · rw [if_neg hc] at h
        injection h with hb
        rw [← hb]
        exact List.mem_cons_self l t

/-- Helper: the label selected by pickMostSpecific has maximal mask length. -/
theorem pickMostSpecific_max : ∀ {ls : List String} {b : String},
    pickMostSpecific ls = some b → ∀ l ∈ ls, cidrMaskLen l ≤ cidrMaskLen b := by
  intro ls
  induction ls with
  | nil => intro b h; simp [pickMostSpecific] at h
  | cons l t ih =>
    intro b h x hx
    unfold pickMostSpecific at h
    cases hp : pickMostSpecific t with
    | none =>
      rw [hp] at h
      simp only at h
      injection h with hb
      have ht : t = [] := by
        cases t with
        | nil => rfl
        | cons a s =>
          exfalso
          unfold pickMostSpecific at hp
          cases hq : pickMostSpecific s with
          | none => rw [hq] at hp; simp at hp
          | some c => rw [hq] at hp; simp only at hp; split at hp <;> simp at hp
      subst ht
      simp only [List.mem_singleton] at hx
      subst hx
      rw [← hb]
    | some c =>
      rw [hp] at h
      simp only at h
      by_cases hc : cidrMaskLen c > cidrMaskLen l
      · rw [if_pos hc] at h
        injection h with hb
        subst hb
        rcases List.mem_cons.mp hx with hxl | hxt
        · subst hxl; exact le_of_lt hc
        · exact ih hp x hxt
      · rw [if_neg hc] at h
        injection h with hb
        subst hb
        rcases List.mem_cons.mp hx with hxl | hxt
        · subst hxl; exact le_refl _
        · exact le_trans (ih hp x hxt) (le_of_not_lt hc)

/-- C6: filterCidrLabels keeps at most one cidr-tagged label, that label has
the largest mask length among the cidr labels of the input, all non-cidr
labels are preserved in their original order, and the empty input yields the
empty result. -/
theorem filterCidrLabels_spec (L : List String) :
    ((filterCidrLabels L).filter isCidrLabel).length ≤ 1 ∧
    (∀ c ∈ filterCidrLabels L, isCidrLabel c = true →
      ∀ l ∈ L, isCidrLabel l = true → cidrMaskLen l ≤ cidrMaskLen c) ∧
    (filterCidrLabels L).filter (fun l => !(isCidrLabel l)) =
      L.filter (fun l => !(isCidrLabel l)) ∧
    filterCidrLabels ([] : List String) = [] := by
  have hkeepNoCidr : ∀ c, c ∈ L.filter (fun l => !(isCidrLabel l)) → isCidrLabel c = false := by
    intro c hc
    have := (List.mem_filter.mp hc).2
    simpa using this
  have hkeepCidrNil : (L.filter (fun l => !(isCidrLabel l))).filter isCidrLabel = [] := by
    rw [List.filter_filter]
    apply List.filter_eq_nil_iff.mpr
    intro a _
    cases isCidrLabel a <;> simp
  have hkeepIdem :
      (L.filter (fun l => !(isCidrLabel l))).filter (fun l => !(isCidrLabel l)) =
        L.filter (fun l => !(isCidrLabel l)) := by
    rw [List.filter_filter]
    apply List.filter_congr
    intro a _
    cases isCidrLabel a <;> simp
  unfold filterCidrLabels
  cases hp : pickMostSpecific (L.filter isCidrLabel) with
  | none =>
    refine ⟨?_, ?_, hkeepIdem, rfl⟩
    · rw [hkeepCidrNil]; simp
    · intro c hc hcidr
      exact absurd (hkeepNoCidr c hc) (by simp [hcidr])
  | some best =>
    have hbestMem : best ∈ L.filter isCidrLabel := pickMostSpecific_mem hp
    have hbestCidr : isCidrLabel best = true := (List.mem_filter.mp hbestMem).2
    refine ⟨?_, ?_, ?_, rfl⟩
    · rw [List.filter_append, hkeepCidrNil]
      simp [hbestCidr]
    · intro c hc hcidr l hl hlcidr
      rcases List.mem_append.mp hc with hck | hcb
      · exact absurd (hkeepNoCidr c hck) (by simp [hcidr])
      · have hcb' : c = best := by simpa using hcb
        subst hcb'
        exact pickMostSpecific_max hp l (List.mem_filter.mpr ⟨hl, hlcidr⟩)
    · rw [List.filter_append, hkeepIdem]
      simp [hbestCidr]

/-- C6 (witness): the theorem applied to the mixed unit-test input, where the
surviving label is the /24 one and the /23 label is bounded by it. -/
theorem filterCidrLabels_spec_witness :
    cidrMaskLen "cidr:1.1.1.1/23" ≤ cidrMaskLen "cidr:1.1.1.1/24" :=
  (filterCidrLabels_spec ["b", "cidr:1.1.1.1/23", "a", "d", "cidr:1.1.1.1/24"]).2.1
    "cidr:1.1.1.1/24" (by decide) (by decide) "cidr:1.1.1.1/23" (by decide) (by decide)

/-- C7: for a decoded trace event, a version-1 header with a non-zero
original source IP makes the flow's L3 source IP that original address, and a
zero original IP (or a version-0 header) leaves the embedded packet's source
IP in place. -/
theorem traceFlowSourceIP_spec (hdr : TraceNotifyHeader) (pkt : Nat) :
    (hdr.version = 1 → hdr.origIP ≠ 0 → traceFlowSourceIP hdr pkt = hdr.origIP) ∧
    (hdr.origIP = 0 ∨ hdr.version = 0 → traceFlowSourceIP hdr pkt = pkt) := by
  constructor
  · intro hv ho
    unfold traceFlowSourceIP
    rw [if_pos]
    simp [hv, ho]
  · intro h
    unfold traceFlowSourceIP
    rcases h with h0 | h0 <;> simp [h0]

/-- C7 (witness): the theorem applied to the scenario-3 inputs — original IP
1.1.1.1 over a packet with source 2.2.2.2 — and to the zero-IP and
version-0 cases. -/
theorem traceFlowSourceIP_spec_witness :
    traceFlowSourceIP ⟨1, 16843009⟩ 33686018 = 16843009 ∧
    traceFlowSourceIP ⟨1, 0⟩ 33686018 = 33686018 ∧
    traceFlowSourceIP ⟨0, 16843009⟩ 33686018 = 33686018 :=
  ⟨(traceFlowSourceIP_spec ⟨1, 16843009⟩ 33686018).1 rfl (by decide),
    (traceFlowSourceIP_spec ⟨1, 0⟩ 33686018).2 (Or.inl rfl),
    (traceFlowSourceIP_spec ⟨0, 16843009⟩ 33686018).2 (Or.inr rfl)⟩

/-- C8: an upsert whose old-identity field is present and differs from the
identity stored for the CIDR is a no-op, and the scenario-5 sequence leaves
GetPodNameOf answering (ns-1,pod-1,true), (ns-2,pod-2,true), (ns-3,pod-3,true)
and (empty,empty,false) for 1.1.1.1, 2.2.2.2, 3.3.3.3 and 4.4.4.4. -/
theorem ipcache_stale_upsert_and_sync_scenario :
    (∀ (c : IPCache) (key : Cidr) (newId old : Nat) (ns pod : String) (e : IPCacheEntry),
      c.lookup key = some e → e.identity ≠ old →
      c.upsert key newId (some old) ns pod = c) ∧
    (scenarioCache.GetPodNameOf 16843009 = ("ns-1", "pod-1", true) ∧
      scenarioCache.GetPodNameOf 33686018 = ("ns-2", "pod-2", true) ∧
      scenarioCache.GetPodNameOf 50529027 = ("ns-3", "pod-3", true) ∧
      scenarioCache.GetPodNameOf 67372036 = ("", "", false)) := by
  constructor
  · intro c key newId old ns pod e hl hne
    unfold IPCache.upsert
    rw [hl]
    have hb : (e.identity == old) = false := beq_eq_false_iff_ne.mpr hne
    simp [hb]
  · exact ⟨by decide, by decide, by decide, by decide⟩

/-- C8 (witness): the stale scenario-5 upsert of 3.3.3.3 with old identity
200 against stored identity 100 leaves the bootstrap cache unchanged. -/
theorem ipcache_stale_upsert_and_sync_scenario_witness :
    bootstrapCache.upsert (cidr32 50529027) 100 (some 200) "" "" = bootstrapCache :=
  ipcache_stale_upsert_and_sync_scenario.1 bootstrapCache (cidr32 50529027) 100 200 "" ""
    ⟨100, "ns-3", "pod-3"⟩ (by decide) (by decide)

/-- C9: LooseCompareHTTP returns true exactly when Code, Method, Url and
Protocol all match (headers are ignored), and is therefore reflexive,
symmetric and transitive. -/
theorem LooseCompareHTTP_characterisation (a b c : HTTP) :
    (LooseCompareHTTP a b = true ↔
      a.Code = b.Code ∧ a.Method = b.Method ∧ a.Url = b.Url ∧ a.Protocol = b.Protocol) ∧
    LooseCompareHTTP a a = true ∧
    (LooseCompareHTTP a b = true → LooseCompareHTTP b a = true) ∧
    (LooseCompareHTTP a b = true → LooseCompareHTTP b c = true →
      LooseCompareHTTP a c = true) := by
  have hiff : ∀ x y : HTTP, LooseCompareHTTP x y = true ↔
      x.Code = y.Code ∧ x.Method = y.Method ∧ x.Url = y.Url ∧ x.Protocol = y.Protocol := by
    intro x y
    unfold LooseCompareHTTP
    simp only [Bool.and_eq_true, beq_iff_eq]
    tauto
  refine ⟨hiff a b, (hiff a a).mpr ⟨rfl, rfl, rfl, rfl⟩, ?_, ?_⟩
  · intro h
    obtain ⟨h1, h2, h3, h4⟩ := (hiff a b).mp h
    exact (hiff b a).mpr ⟨h1.symm, h2.symm, h3.symm, h4.symm⟩
  · intro h g
    obtain ⟨h1, h2, h3, h4⟩ := (hiff a b).mp h
    obtain ⟨g1, g2, g3, g4⟩ := (hiff b c).mp g
    exact (hiff a c).mpr ⟨h1.trans g1, h2.trans g2, h3.trans g3, h4.trans g4⟩

/-- C9 (witness): symmetry and transitivity applied to two records that agree
on the four compared fields but differ in headers. -/
theorem LooseCompareHTTP_characterisation_witness :
    LooseCompareHTTP httpB httpA = true ∧ LooseCompareHTTP httpA httpA = true :=
  ⟨(LooseCompareHTTP_characterisation httpA httpB httpA).2.2.1 (by decide),
    (LooseCompareHTTP_characterisation httpA httpB httpA).2.2.2 (by decide) (by decide)⟩

/-- C10: SetFrom is a partial overwrite — each zero-valued non-time field of
the source (nil container ids, id 0, nil IPv4 or IPv6, empty pod name or
namespace) leaves the receiver's field unchanged, and each non-zero field is
copied. -/
theorem SetFrom_partial_overwrite (e o : Endpoint) :
    (o.ContainerIDs = none → (e.SetFrom o).ContainerIDs = e.ContainerIDs) ∧
    (o.ContainerIDs ≠ none → (e.SetFrom o).ContainerIDs = o.ContainerIDs) ∧
    (o.ID = 0 → (e.SetFrom o).ID = e.ID) ∧
    (o.ID ≠ 0 → (e.SetFrom o).ID = o.ID) ∧
    (o.IPv4 = none → (e.SetFrom o).IPv4 = e.IPv4) ∧
    (o.IPv4 ≠ none → (e.SetFrom o).IPv4 = o.IPv4) ∧
    (o.IPv6 = none → (e.SetFrom o).IPv6 = e.IPv6) ∧
    (o.IPv6 ≠ none → (e.SetFrom o).IPv6 = o.IPv6) ∧
    (o.PodName = "" → (e.SetFrom o).PodName = e.PodName) ∧
    (o.PodName ≠ "" → (e.SetFrom o).PodName = o.PodName) ∧
    (o.PodNamespace = "" → (e.SetFrom o).PodNamespace = e.PodNamespace) ∧
    (o.PodNamespace ≠ "" → (e.SetFrom o).PodNamespace = o.PodNamespace) := by
  unfold Endpoint.SetFrom
  refine ⟨?_, ?_, ?_, ?_, ?_, ?_, ?_, ?_, ?_, ?_, ?_, ?_⟩ <;> intro h <;>
    simp [Option.isSome_iff_ne_none, bne_iff_ne, h]

/-- C10 (witness): the theorem applied to an all-zero source (every field of
the receiver survives) and to a fully populated source (every non-time field
is copied). -/
theorem SetFrom_partial_overwrite_witness :
    (liveEp.SetFrom epZeroSrc).ContainerIDs = liveEp.ContainerIDs ∧
    (liveEp.SetFrom epZeroSrc).ID = liveEp.ID ∧
    (liveEp.SetFrom epZeroSrc).IPv4 = liveEp.IPv4 ∧
    (liveEp.SetFrom epZeroSrc).IPv6 = liveEp.IPv6 ∧
    (liveEp.SetFrom epZeroSrc).PodName = liveEp.PodName ∧
    (liveEp.SetFrom epZeroSrc).PodNamespace = liveEp.PodNamespace ∧
    (liveEp.SetFrom epFullSrc).ContainerIDs = epFullSrc.ContainerIDs ∧
    (liveEp.SetFrom epFullSrc).ID = epFullSrc.ID ∧
    (liveEp.SetFrom epFullSrc).IPv4 = epFullSrc.IPv4 ∧
    (liveEp.SetFrom epFullSrc).IPv6 = epFullSrc.IPv6 ∧
    (liveEp.SetFrom epFullSrc).PodName = epFullSrc.PodName ∧
    (liveEp.SetFrom epFullSrc).PodNamespace = epFullSrc.PodNamespace := by
  have hz := SetFrom_partial_overwrite liveEp epZeroSrc
  have hf := SetFrom_partial_overwrite liveEp epFullSrc
  exact ⟨hz.1 (by decide), hz.2.2.1 (by decide), hz.2.2.2.2.1 (by decide),
    hz.2.2.2.2.2.2.1 (by decide), hz.2.2.2.2.2.2.2.2.1 (by decide),
    hz.2.2.2.2.2.2.2.2.2.2.1 (by decide),
    hf.2.1 (by decide), hf.2.2.2.1 (by decide), hf.2.2.2.2.2.1 (by decide),
    hf.2.2.2.2.2.2.2.1 (by decide), hf.2.2.2.2.2.2.2.2.2.1 (by decide),
    hf.2.2.2.2.2.2.2.2.2.2.2 (by decide)⟩
